import Mathlib

/-!
Verification of the scraper's reconciliation and flattening logic
(`src/scraper/src/main.rs`) against its specification.

The embedding models the pure core: timestamp parsing/formatting under the
compact `YYMMDDHHMM` format, delay computation, train-name resolution,
path assembly, disturbance aggregation, the plan-map (Identity Map) build
loop, and the run orchestration (ingestion gate, heartbeat).  Network and
file-system boundaries are represented by explicit outcome parameters.
-/

namespace Scraper

/-- A service message attached to a stop or train event (`struct Message`).
Only `category` is consumed downstream. -/
structure Message where
  msg_type : Option String
  category : Option String
  valid_from : Option String
  valid_to : Option String
  ts : Option String
  ts_tts : Option String
  deriving DecidableEq, Repr

/-- An arrival or departure event (`struct TrainEvent`). -/
structure TrainEvent where
  actual_time : Option String
  planned_time : Option String
  planned_path : Option String
  changed_path : Option String
  platform : Option String
  line : Option String
  category : Option String
  number : Option String
  messages : List Message
  deriving DecidableEq, Repr

/-- Effective path of an event: changed path if present, else planned path
(`impl TrainEvent::path`). -/
def TrainEvent.path (e : TrainEvent) : Option String :=
  e.changed_path.or e.planned_path

/-- Static train-line descriptor (`struct TrainLine`). -/
structure TrainLine where
  category : Option String
  number : Option String
  deriving DecidableEq, Repr

/-- One stop of a timetable payload (`struct Stop`). -/
structure Stop where
  id : String
  messages : List Message
  arrivals : Option TrainEvent
  departures : Option TrainEvent
  train_line : Option TrainLine
  deriving DecidableEq, Repr

/-- A parsed timetable payload (`struct Timetable`). -/
structure Timetable where
  stops : List Stop
  deriving DecidableEq, Repr

/-- One flat output record (`struct Departure`).  The `delay` field is an
`i32` in the source; it is modelled as an `Int` produced by an explicit
32-bit truncating cast. -/
structure Departure where
  trip_id : String
  train : String
  destination : String
  path : String
  scheduled_time : String
  platform : String
  delay : Int
  disturbances : String
  deriving DecidableEq, Repr

/-! ### Timestamps: the `%y%m%d%H%M` format and the canonical display form -/

/-- ASCII digit test, as used by the numeric fields of the parse format. -/
def isDig (c : Char) : Bool := 48 ≤ c.toNat && c.toNat ≤ 57

/-- Numeric value of an ASCII digit character. -/
def d2n (c : Char) : Nat := c.toNat - 48

/-- A parsed calendar timestamp (minute resolution, no seconds).  `year` is
the resolved four-digit year: the two-digit year is mapped POSIX-style,
`00..68 ↦ 2000..2068` and `69..99 ↦ 1969..1999`. -/
structure DateTime where
  year : Nat
  month : Nat
  day : Nat
  hour : Nat
  minute : Nat
  deriving DecidableEq, Repr

/-- Gregorian leap-year test. -/
def isLeap (y : Nat) : Bool := y % 4 == 0 && (y % 100 != 0 || y % 400 == 0)

/-- Days in a month of the proleptic Gregorian calendar. -/
def daysInMonth (y m : Nat) : Nat :=
  if m = 2 then (if isLeap y then 29 else 28)
  else if m = 4 ∨ m = 6 ∨ m = 9 ∨ m = 11 then 30
  else 31

/-- Resolve a two-digit year POSIX-style: `00..68 ↦ 2000..2068`,
`69..99 ↦ 1969..1999`. -/
def resolveYY (yy : Nat) : Nat := if yy ≤ 68 then 2000 + yy else 1900 + yy

/-- Unicode `White_Space` test (Rust's `char::is_whitespace`, used by the
`trim_start` that chrono applies before every numeric field). -/
def isRustWs (c : Char) : Bool :=
  c.toNat = 0x20 || (0x9 ≤ c.toNat && c.toNat ≤ 0xD) || c.toNat = 0x85 || c.toNat = 0xA0 ||
  c.toNat = 0x1680 || (0x2000 ≤ c.toNat && c.toNat ≤ 0x200A) || c.toNat = 0x2028 ||
  c.toNat = 0x2029 || c.toNat = 0x202F || c.toNat = 0x205F || c.toNat = 0x3000

/-- Drop leading whitespace (`str::trim_start`). -/
def dropWs : List Char → List Char
  | [] => []
  | c :: rest => if isRustWs c then dropWs rest else c :: rest

/-- Scan one or two ASCII digits greedily and return the value with the
remaining input (chrono's `scan::number(s, 1, 2)`); `none` when the input
does not start with a digit. -/
def scanNum2 : List Char → Option (Nat × List Char)
  | [] => none
  | c :: rest =>
    if isDig c then
      match rest with
      | c2 :: rest2 =>
        if isDig c2 then some (10 * d2n c + d2n c2, rest2) else some (d2n c, c2 :: rest2)
      | [] => some (d2n c, [])
    else none

/-- One numeric field of the parse: trim leading whitespace, then scan one
or two digits (chrono's handling of each `Numeric` item of the format). -/
def scanField (l : List Char) : Option (Nat × List Char) := scanNum2 (dropWs l)

/-- Parse a timestamp the way `NaiveDateTime::parse_from_str` with format
`"%y%m%d%H%M"` does: five numeric fields, each preceded by a whitespace
trim and scanning one or two ASCII digits greedily; the whole input must
be consumed, and the fields must form a valid calendar date and time of
day.  In particular the compact ten-digit `YYMMDDHHMM` form parses with
exactly two digits per field, but shorter digit runs and interspersed
whitespace are also accepted, as in chrono. -/
def parseYYMMDDHHMM (s : String) : Option DateTime :=
  match scanField s.data with
  | none => none
  | some (yy, r1) =>
    match scanField r1 with
    | none => none
    | some (month, r2) =>
      match scanField r2 with
      | none => none
      | some (day, r3) =>
        match scanField r3 with
        | none => none
        | some (hour, r4) =>
          match scanField r4 with
          | none => none
          | some (minute, r5) =>
            if r5 = [] then
              let year := resolveYY yy
              if 1 ≤ month ∧ month ≤ 12 ∧ 1 ≤ day ∧ day ≤ daysInMonth year month ∧
                 hour ≤ 23 ∧ minute ≤ 59 then
                some ⟨year, month, day, hour, minute⟩
              else none
            else none

/-- Day number of a civil date relative to 1970-01-01 (Hinnant's
`days_from_civil` algorithm, specialised to nonnegative years). -/
def daysFromCivil (y m d : Nat) : Int :=
  let yAdj := if m ≤ 2 then y - 1 else y
  let era := yAdj / 400
  let yoe := yAdj - era * 400
  let mp := if 2 < m then m - 3 else m + 9
  let doy := (153 * mp + 2) / 5 + d - 1
  let doe := yoe * 365 + yoe / 4 - yoe / 100 + doy
  (↑(era * 146097 + doe) : Int) - 719468

/-- A timestamp's value in whole minutes since the epoch; the subtrahend and
minuend of chrono's `NaiveDateTime` subtraction measured in minutes. -/
def minutesValue (dt : DateTime) : Int :=
  daysFromCivil dt.year dt.month dt.day * 1440 + (dt.hour : Int) * 60 + (dt.minute : Int)

/-- Truncating cast of a 64-bit integer to `i32` (two's complement wrap),
modelling Rust's `as i32`. -/
def toI32 (n : Int) : Int := (n + 2147483648) % 4294967296 - 2147483648

/-- Delay in whole minutes between two compact timestamps; `0` when either
fails to parse (`fn calculate_delay_minutes`). -/
def calculate_delay_minutes (planned actual : String) : Int :=
  match parseYYMMDDHHMM planned, parseYYMMDDHHMM actual with
  | some p, some a => toI32 (minutesValue a - minutesValue p)
  | _, _ => 0

/-- Zero-pad a two-digit numeric field. -/
def pad2 (n : Nat) : String := if n < 10 then "0" ++ toString n else toString n

/-- The canonical `YYYY-MM-DD HH:MM:SS` display form (chrono's
`format "%Y-%m-%d %H:%M:%S"` on a minute-resolution timestamp). -/
def formatCanonical (dt : DateTime) : String :=
  toString dt.year ++ "-" ++ pad2 dt.month ++ "-" ++ pad2 dt.day ++ " " ++
    pad2 dt.hour ++ ":" ++ pad2 dt.minute ++ ":00"

/-- Reformat a compact timestamp for display, passing unparseable input
through unchanged (`fn format_db_time`).  The length gate is the source's
`raw.len() != 10`, a UTF-8 byte count. -/
def format_db_time (raw : String) : String :=
  if raw.utf8ByteSize ≠ 10 then raw
  else
    match parseYYMMDDHHMM raw with
    | some dt => formatCanonical dt
    | none => raw

/-! ### The departure flattener (`fn fetch_departures`, pure part) -/

/-- A HashMap from stop identifier to train name, modelled extensionally. -/
def PlanMap : Type := String → Option String

/-- The empty map (`HashMap::new`). -/
def mapEmpty : PlanMap := fun _ => none

/-- Map insertion with overwrite (`HashMap::insert`). -/
def mapInsert (m : PlanMap) (k v : String) : PlanMap :=
  fun x => if x = k then some v else m x

/-- The `{category} {number}` combination used by the flattener's live
identity arm, requiring both fields (`(_, Some(c), Some(n))`). -/
def catAndNum : Option String → Option String → Option String
  | some c, some n => some (c ++ " " ++ n)
  | _, _ => none

/-- Display name from a static train-line descriptor: `{category} {number}`
when both exist, category alone when only the category exists. -/
def TrainLine.name (tl : TrainLine) : Option String :=
  match tl.category, tl.number with
  | some c, some n => some (c ++ " " ++ n)
  | some c, none => some c
  | _, _ => none

/-- The live-changes identity candidate from the departure event itself:
its line label when non-empty, else category+number when both exist
(the guarded `match` building `change_name`). -/
def changeName (dp : TrainEvent) : Option String :=
  match dp.line with
  | some l => if l ≠ "" then some l else catAndNum dp.category dp.number
  | none => catAndNum dp.category dp.number

/-- Train-name resolution of the flattener: the live candidate, else the
Identity Map entry, else the static descriptor, else `"Unknown"`. -/
def trainName (plan_map : PlanMap) (stop : Stop) (dp : TrainEvent) : String :=
  (((changeName dp).or (plan_map stop.id)).or
      (stop.train_line.bind TrainLine.name)).getD "Unknown"

/-- Raw scheduled time: actual if present, else planned, else empty. -/
def rawTime (dp : TrainEvent) : String :=
  dp.actual_time.getD (dp.planned_time.getD "")

/-- The record's delay: computed only when both times are present. -/
def delayMin (dp : TrainEvent) : Int :=
  match dp.planned_time, dp.actual_time with
  | some p, some a => calculate_delay_minutes p a
  | _, _ => 0

/-- Effective arrival path of a stop (empty when there is no arrival
event or the event has no path). -/
def arrivalPathOf (stop : Stop) : String :=
  (stop.arrivals.bind TrainEvent.path).getD ""

/-- Effective departure path of a departure event. -/
def departurePathOf (dp : TrainEvent) : String :=
  dp.path.getD ""

/-- Full route string: path fragments joined around the fixed origin-station
display name `"Berlin Hbf"`. -/
def fullRoute (arrival_path departure_path : String) : String :=
  if arrival_path = "" ∧ departure_path = "" then "Berlin Hbf"
  else if arrival_path = "" then "Berlin Hbf" ++ "|" ++ departure_path
  else if departure_path = "" then arrival_path ++ "|" ++ "Berlin Hbf"
  else arrival_path ++ "|" ++ "Berlin Hbf" ++ "|" ++ departure_path

/-- Split a character list at `'|'` occurrences (the segments produced by
Rust's `str::split('|')`, which always yields at least one segment). -/
def splitPipeAux : List Char → List (List Char)
  | [] => [[]]
  | c :: rest =>
    if c = '|' then [] :: splitPipeAux rest
    else
      match splitPipeAux rest with
      | [] => [[c]]
      | s :: ss => (c :: s) :: ss

/-- Segments of a string between `'|'` separators (`str::split('|')`). -/
def splitPipe (s : String) : List String := (splitPipeAux s.data).map String.mk

/-- Join strings with the `"|"` separator (`[String]::join("|")`). -/
def joinPipe : List String → String
  | [] => ""
  | [s] => s
  | s :: rest => s ++ "|" ++ joinPipe rest

/-- Destination: last `|`-delimited segment of the departure path when that
segment is non-empty, else the origin-station name
(`split('|').last().filter(non-empty).unwrap_or("Berlin Hbf")`). -/
def destOf (departure_path : String) : String :=
  let lastSeg := (splitPipe departure_path).getLastD ""
  if lastSeg = "" then "Berlin Hbf" else lastSeg

/-- Remove consecutive duplicates, keeping one element per run
(`Vec::dedup`). -/
def dedupAdj : List String → List String
  | [] => []
  | [a] => [a]
  | a :: b :: rest => if a = b then dedupAdj (b :: rest) else a :: dedupAdj (b :: rest)

/-- Raw disturbance categories: stop messages chained with the departure
event's messages, keeping present `category` values. -/
def catList (stop : Stop) (dp : TrainEvent) : List String :=
  (stop.messages ++ dp.messages).filterMap Message.category

/-- Sorted, consecutive-deduplicated disturbance categories
(`sort` then `dedup`). -/
def sortedCats (stop : Stop) (dp : TrainEvent) : List String :=
  dedupAdj (List.insertionSort (· ≤ ·) (catList stop dp))

/-- Pipe-joined disturbance summary. -/
def disturbancesOf (stop : Stop) (dp : TrainEvent) : String :=
  joinPipe (sortedCats stop dp)

/-- The flat record built for one stop that has a departure event
(the loop body of `fetch_departures`). -/
def flattenDp (plan_map : PlanMap) (stop : Stop) (dp : TrainEvent) : Departure :=
  { trip_id := stop.id
    train := trainName plan_map stop dp
    destination := destOf (departurePathOf dp)
    path := fullRoute (arrivalPathOf stop) (departurePathOf dp)
    scheduled_time := format_db_time (rawTime dp)
    platform := dp.platform.getD "--"
    delay := delayMin dp
    disturbances := disturbancesOf stop dp }

/-- Flatten one stop: a record exactly when a departure event is present. -/
def flattenStop (plan_map : PlanMap) (stop : Stop) : Option Departure :=
  match stop.departures with
  | none => none
  | some dp => some (flattenDp plan_map stop dp)

/-- Flatten a live-changes payload (`fetch_departures`, after fetch/parse). -/
def fetch_departures (plan_map : PlanMap) (tt : Timetable) : List Departure :=
  tt.stops.filterMap (flattenStop plan_map)

/-! ### The Identity Resolver (`fn fetch_plan_map`) -/

/-- Outcome of one hour's plan request at the network boundary.
`sendError` covers transport failures of `send()`/`text()` (the `?`
operators), `httpFailure` a response with non-success status, and `body`
a success response whose text is then XML-parsed (`from_str`, also behind
a `?`). -/
inductive HourResult where
  | sendError
  | httpFailure
  | body (parsed : Except String Timetable)

/-- Line label of the chosen plan event: the departure event if one exists,
else the arrival event (`stop.departures.as_ref().or(stop.arrivals.as_ref())`);
retained only when present and non-empty. -/
def planEventLine (stop : Stop) : Option String :=
  match stop.departures.or stop.arrivals with
  | some ev =>
    match ev.line with
    | some l => if l ≠ "" then some l else none
    | none => none
  | none => none

/-- Name resolved for one plan stop: chosen event's line label, else the
static descriptor's name, else `"ID:" ++` the first 8 characters of the
stop identifier. -/
def planStopName (stop : Stop) : String :=
  ((planEventLine stop).or (stop.train_line.bind TrainLine.name)).getD
    ("ID:" ++ String.mk (stop.id.data.take 8))

/-- Fold one parsed plan payload's stops into the map, inserting or
overwriting each stop's entry. -/
def processStops (m : PlanMap) (stops : List Stop) : PlanMap :=
  stops.foldl (fun m stop => mapInsert m stop.id (planStopName stop)) m

/-- The plan-window build loop of `fetch_plan_map`: an `httpFailure` hour is
logged and skipped, but a transport error or a body-parse error escapes
through the surrounding `?` and aborts the build. -/
def fetch_plan_map : List HourResult → PlanMap → Except Unit PlanMap
  | [], m => .ok m
  | .sendError :: _, _ => .error ()
  | .httpFailure :: rest, m => fetch_plan_map rest m
  | .body (.error _) :: _, _ => .error ()
  | .body (.ok tt) :: rest, m => fetch_plan_map rest (processStops m tt.stops)

/-! ### The runner (`fn main`: ingestion gate, sink, heartbeat) -/

/-- Observable outcome of one run of `main`. -/
structure RunResult where
  networkAttempted : Bool
  sinkAttempted : Bool
  sinkErrorLogged : Bool
  heartbeat : List String
  ok : Bool
  deriving DecidableEq, Repr

/-- One run of `main`.  `q` is the row-count query's outcome (`none` models
a failed query or an absent row, folded to `0` by `unwrap_or(0)`); `hours`
feeds the plan-window build; `fchg` is the live-changes fetch/parse outcome;
`sinkOk` is the parquet writer's outcome; `now` the heartbeat timestamp. -/
def runMain (q : Option Int) (hours : List HourResult)
    (fchg : Except Unit Timetable) (sinkOk : Bool) (now : String) : RunResult :=
  let limit : Int := 500
  let count : Int := q.getD 0
  if count ≥ limit then
    { networkAttempted := false, sinkAttempted := false, sinkErrorLogged := false,
      heartbeat := [], ok := true }
  else
    match fetch_plan_map hours mapEmpty with
    | .error _ =>
      { networkAttempted := true, sinkAttempted := false, sinkErrorLogged := false,
        heartbeat := [], ok := false }
    | .ok pm =>
      match fchg with
      | .error _ =>
        { networkAttempted := true, sinkAttempted := false, sinkErrorLogged := false,
          heartbeat := [], ok := true }
      | .ok tt =>
        let deps := fetch_departures pm tt
        let attempted := decide (deps ≠ [])
        { networkAttempted := true
          sinkAttempted := attempted
          sinkErrorLogged := attempted && !sinkOk
          heartbeat := [now ++ " | Fetched " ++ toString deps.length ++ " departures\n"]
          ok := true }

/-! ### Supporting lemmas: timestamp bounds and the delay cast -/

theorem isDig_le {c : Char} (h : isDig c = true) : d2n c ≤ 9 := by
  unfold isDig at h
  simp only [Bool.and_eq_true, decide_eq_true_eq] at h
  unfold d2n
  omega

theorem daysInMonth_le_31 (y m : Nat) : daysInMonth y m ≤ 31 := by
  unfold daysInMonth
  split_ifs <;> omega

theorem resolveYY_bounds {yy : Nat} (h : yy ≤ 99) :
    1969 ≤ resolveYY yy ∧ resolveYY yy ≤ 2068 := by
  unfold resolveYY
  split <;> omega

theorem scanNum2_le {l : List Char} {v : Nat} {r : List Char}
    (h : scanNum2 l = some (v, r)) : v ≤ 99 := by
  unfold scanNum2 at h
  split at h
  · exact absurd h (by simp)
  · rename_i c rest
    split at h
    · rename_i hc
      have hb := isDig_le hc
      split at h
      · rename_i c2 rest2
        split at h
        · rename_i hc2
          have hb2 := isDig_le hc2
          rw [Option.some.injEq] at h
          have hv : 10 * d2n c + d2n c2 = v := congrArg Prod.fst h
          omega
        · rw [Option.some.injEq] at h
          have hv : d2n c = v := congrArg Prod.fst h
          omega
      · rw [Option.some.injEq] at h
        have hv : d2n c = v := congrArg Prod.fst h
        omega
    · exact absurd h (by simp)

theorem scanField_le {l : List Char} {v : Nat} {r : List Char}
    (h : scanField l = some (v, r)) : v ≤ 99 := scanNum2_le h

theorem parse_bounds {s : String} {dt : DateTime} (h : parseYYMMDDHHMM s = some dt) :
    1969 ≤ dt.year ∧ dt.year ≤ 2068 ∧ 1 ≤ dt.month ∧ dt.month ≤ 12 ∧
    1 ≤ dt.day ∧ dt.day ≤ 31 ∧ dt.hour ≤ 23 ∧ dt.minute ≤ 59 := by
  unfold parseYYMMDDHHMM at h
  split at h
  · exact absurd h (by simp)
  · rename_i yy r1 heq1
    split at h
    · exact absurd h (by simp)
    · rename_i month r2 heq2
      split at h
      · exact absurd h (by simp)
      · rename_i day r3 heq3
        split at h
        · exact absurd h (by simp)
        · rename_i hour r4 heq4
          split at h
          · exact absurd h (by simp)
          · rename_i minute r5 heq5
            split at h
            · dsimp only [] at h
              split at h
              · rename_i hval
                rw [Option.some.injEq] at h
                subst h
                obtain ⟨hm1, hm2, hd1, hdm, hh, hmi⟩ := hval
                have hd31 : day ≤ 31 := le_trans hdm (daysInMonth_le_31 _ _)
                have hyy : yy ≤ 99 := scanField_le heq1
                have hyb := @resolveYY_bounds yy hyy
                exact ⟨hyb.1, hyb.2, hm1, hm2, hd1, hd31, hh, hmi⟩
              · exact absurd h (by simp)
            · exact absurd h (by simp)

theorem daysFromCivil_bounds {y m d : Nat} (hy1 : 1969 ≤ y) (hy2 : y ≤ 2068)
    (hm1 : 1 ≤ m) (hm2 : m ≤ 12) (hd1 : 1 ≤ d) (hd2 : d ≤ 31) :
    -200000 ≤ daysFromCivil y m d ∧ daysFromCivil y m d ≤ 200000 := by
  simp only [daysFromCivil]
  split_ifs <;> omega

theorem minutesValue_bounds {s : String} {dt : DateTime} (h : parseYYMMDDHHMM s = some dt) :
    -300000000 ≤ minutesValue dt ∧ minutesValue dt ≤ 300000000 := by
  obtain ⟨hy1, hy2, hm1, hm2, hd1, hd2, hh, hmi⟩ := parse_bounds h
  have hb := daysFromCivil_bounds hy1 hy2 hm1 hm2 hd1 hd2
  unfold minutesValue
  omega

theorem toI32_id {n : Int} (h1 : -2147483648 ≤ n) (h2 : n < 2147483648) : toI32 n = n := by
  unfold toI32
  omega

theorem calc_delay_eq {p a : String} {P A : DateTime}
    (hp : parseYYMMDDHHMM p = some P) (ha : parseYYMMDDHHMM a = some A) :
    calculate_delay_minutes p a = minutesValue A - minutesValue P := by
  unfold calculate_delay_minutes
  rw [hp, ha]
  have bp := minutesValue_bounds hp
  have ba := minutesValue_bounds ha
  exact toI32_id (by omega) (by omega)

/-! ### Supporting lemmas: disturbance aggregation and record extraction -/

theorem dedupAdj_mem : ∀ (l : List String) (x : String), x ∈ dedupAdj l ↔ x ∈ l := by
  intro l
  induction l using dedupAdj.induct with
  | case1 => intro x; rfl
  | case2 a => intro x; rfl
  | case3 b rest ih =>
    intro x
    rw [dedupAdj, if_pos rfl]
    rw [ih]
    simp
  | case4 a b rest hab ih =>
    intro x
    rw [dedupAdj, if_neg hab]
    simp [ih]

theorem dedupAdj_sorted : ∀ l : List String, l.Sorted (· ≤ ·) → (dedupAdj l).Sorted (· < ·) := by
  intro l
  induction l using dedupAdj.induct with
  | case1 => intro _; exact List.sorted_nil
  | case2 a => intro _; exact List.sorted_singleton a
  | case3 b rest ih =>
    intro hs
    rw [dedupAdj, if_pos rfl]
    exact ih (List.sorted_cons.mp hs).2
  | case4 a b rest hab ih =>
    intro hs
    have hcons := List.sorted_cons.mp hs
    have haleb : a ≤ b := hcons.1 b (List.mem_cons_self b rest)
    have haltb : a < b := lt_of_le_of_ne haleb hab
    rw [dedupAdj, if_neg hab, List.sorted_cons]
    refine ⟨?_, ih hcons.2⟩
    intro x hx
    rcases List.mem_cons.mp ((dedupAdj_mem _ x).mp hx) with rfl | hxr
    · exact haltb
    · exact lt_of_lt_of_le haltb ((List.sorted_cons.mp hcons.2).1 x hxr)

theorem sortedCats_sorted (stop : Stop) (dp : TrainEvent) :
    (sortedCats stop dp).Sorted (· < ·) :=
  dedupAdj_sorted _ (List.sorted_insertionSort _ _)

theorem sortedCats_mem (stop : Stop) (dp : TrainEvent) (x : String) :
    x ∈ sortedCats stop dp ↔ x ∈ catList stop dp := by
  rw [sortedCats, dedupAdj_mem]
  exact (List.perm_insertionSort _ _).mem_iff

theorem flattenStop_some {pm : PlanMap} {stop : Stop} {dp : TrainEvent} {rec : Departure}
    (hdp : stop.departures = some dp) (h : flattenStop pm stop = some rec) :
    rec = flattenDp pm stop dp := by
  rw [flattenStop, hdp] at h
  exact (Option.some.injEq _ _).mp h.symm

/-! ### Supporting lemmas: plan-map build and the name chain -/

/-- Last stop of a payload carrying a given identifier (the insertion-order
winner under `HashMap::insert` overwrite semantics). -/
def findLastStop (stops : List Stop) (id : String) : Option Stop :=
  stops.foldl (fun acc s => if s.id = id then some s else acc) none

theorem processStops_foldl_general :
    ∀ (stops : List Stop) (m : PlanMap) (acc : Option Stop) (m0 : PlanMap) (id : String),
      (m id = match acc with | some s => some (planStopName s) | none => m0 id) →
      processStops m stops id =
        match stops.foldl (fun a s => if s.id = id then some s else a) acc with
        | some s => some (planStopName s)
        | none => m0 id := by
  intro stops
  induction stops with
  | nil => intro m acc m0 id h; exact h
  | cons s rest ih =>
    intro m acc m0 id h
    show processStops (mapInsert m s.id (planStopName s)) rest id = _
    rw [List.foldl_cons]
    apply ih
    by_cases hid : s.id = id
    · rw [if_pos hid]
      show (if id = s.id then some (planStopName s) else m id) = some (planStopName s)
      rw [if_pos hid.symm]
    · rw [if_neg hid]
      show (if id = s.id then some (planStopName s) else m id) = _
      rw [if_neg (fun hh => hid hh.symm)]
      exact h

theorem processStops_lookup (stops : List Stop) (m : PlanMap) (id : String) :
    processStops m stops id =
      match findLastStop stops id with
      | some s => some (planStopName s)
      | none => m id :=
  processStops_foldl_general stops m none m id rfl

/-- The payload of a successfully fetched and parsed hour. -/
def goodHour : HourResult → Option Timetable
  | .body (.ok tt) => some tt
  | _ => none

theorem fetch_plan_map_ok :
    ∀ (hours : List HourResult) (m : PlanMap),
      (∀ hr ∈ hours, hr = HourResult.httpFailure ∨ ∃ tt, hr = HourResult.body (Except.ok tt)) →
      fetch_plan_map hours m =
        Except.ok ((hours.filterMap goodHour).foldl (fun m tt => processStops m tt.stops) m) := by
  intro hours
  induction hours with
  | nil => intro m _; rfl
  | cons hr rest ih =>
    intro m hall
    rcases hall hr (List.mem_cons_self hr rest) with rfl | ⟨tt, rfl⟩
    · rw [fetch_plan_map]
      rw [ih m (fun x hx => hall x (List.mem_cons_of_mem _ hx))]
      rfl
    · rw [fetch_plan_map]
      rw [ih (processStops m tt.stops) (fun x hx => hall x (List.mem_cons_of_mem _ hx))]
      rfl

/-- The specification's train-name priority chain, transcribed step by step
from the spec's wording: (1) departure line label if non-empty, (2) else
category+number of the departure event when both exist, (3) else the
Identity Map entry, (4) else the static descriptor's name, (5) else
`"Unknown"`. -/
def trainNameSpec (pm : PlanMap) (stop : Stop) (dp : TrainEvent) : String :=
  if dp.line.getD "" ≠ "" then dp.line.getD ""
  else
    match dp.category, dp.number with
    | some c, some n => c ++ " " ++ n
    | _, _ =>
      match pm stop.id with
      | some v => v
      | none =>
        match stop.train_line with
        | none => "Unknown"
        | some tl =>
          match tl.category, tl.number with
          | some c, some n => c ++ " " ++ n
          | some c, none => c
          | _, _ => "Unknown"

theorem trainName_eq_spec (pm : PlanMap) (stop : Stop) (dp : TrainEvent) :
    trainName pm stop dp = trainNameSpec pm stop dp := by
  obtain ⟨sid, smsg, sar, sdp, stl⟩ := stop
  obtain ⟨dat, dpt, dpp, dcp, dplat, dline, dcat, dnum, dmsg⟩ := dp
  unfold trainName trainNameSpec changeName catAndNum
  rcases dline with _ | l <;>
    rcases dcat with _ | c <;>
    rcases dnum with _ | n <;>
    rcases hpm : pm sid with _ | v <;>
    rcases stl with _ | ⟨_ | c2, _ | n2⟩ <;>
    all_goals
      first
        | (simp [Option.or, TrainLine.name, hpm]; done)
        | (by_cases hl : l = "" <;> simp [Option.or, TrainLine.name, hpm, hl])

/-! ### Concrete fixtures used by witnesses and counterexamples -/

/-- A train event with every optional field absent. -/
def evNone : TrainEvent :=
  { actual_time := none, planned_time := none, planned_path := none, changed_path := none,
    platform := none, line := none, category := none, number := none, messages := [] }

/-- Departure event carrying a live line label. -/
def wDp1 : TrainEvent := { evNone with line := some "ICE" }

/-- Stop whose Identity Map entry and static descriptor disagree with the
live line label. -/
def wStop1 : Stop :=
  { id := "t1", messages := [], arrivals := none, departures := some wDp1,
    train_line := some { category := some "RE", number := some "7" } }

/-- Identity Map carrying a conflicting entry for `wStop1`. -/
def wPm1 : PlanMap := mapInsert mapEmpty "t1" "MAPPED"

/-- Departure event with parseable planned and actual times 12 minutes
apart. -/
def wDp2 : TrainEvent :=
  { evNone with planned_time := some "2602101700", actual_time := some "2602101712" }

/-- Stop wrapping `wDp2`. -/
def wStop2 : Stop :=
  { id := "t2", messages := [], arrivals := none, departures := some wDp2, train_line := none }

/-- Departure event whose nine-digit times parse leniently (one digit in
the final field), five minutes apart. -/
def wDp2b : TrainEvent :=
  { evNone with planned_time := some "260101100", actual_time := some "260101105" }

/-- Stop wrapping `wDp2b`. -/
def wStop2b : Stop :=
  { id := "t2b", messages := [], arrivals := none, departures := some wDp2b, train_line := none }

/-! ### Claim theorems (first batch) -/

/-- C1: for every stop with a departure event, the record's train name is
resolved by the spec's exact first-match-wins priority chain (live line
label, live category+number, Identity Map, static descriptor, literal
`"Unknown"`); in particular a non-empty departure line label always wins. -/
theorem train_name_priority :
    ∀ (pm : PlanMap) (stop : Stop) (dp : TrainEvent) (rec : Departure),
      stop.departures = some dp → flattenStop pm stop = some rec →
      rec.train = trainNameSpec pm stop dp ∧
      (∀ l, dp.line = some l → l ≠ "" → rec.train = l) := by
  intro pm stop dp rec hdp hrec
  have he := flattenStop_some hdp hrec
  subst he
  have hfield : (flattenDp pm stop dp).train = trainName pm stop dp := rfl
  constructor
  · rw [hfield, trainName_eq_spec]
  · intro l hl hlne
    rw [hfield, trainName_eq_spec]
    unfold trainNameSpec
    rw [hl]
    simp [hlne]

theorem train_name_priority_witness :
    (flattenDp wPm1 wStop1 wDp1).train = "ICE" := by
  have h := train_name_priority wPm1 wStop1 wDp1 (flattenDp wPm1 wStop1 wDp1) rfl rfl
  exact h.2 "ICE" rfl (by decide)

/-- C2: the record's delay is the whole-minute difference of actual and
planned time when both are present and parse under the `%y%m%d%H%M`
format (including chrono's lenient short-field forms), and exactly `0`
in every other case — either time absent, or either failing to parse. -/
theorem delay_semantics :
    ∀ (pm : PlanMap) (stop : Stop) (dp : TrainEvent) (rec : Departure),
      stop.departures = some dp → flattenStop pm stop = some rec →
      (∀ p a P A, dp.planned_time = some p → dp.actual_time = some a →
        parseYYMMDDHHMM p = some P → parseYYMMDDHHMM a = some A →
        rec.delay = minutesValue A - minutesValue P) ∧
      (∀ p a, dp.planned_time = some p → dp.actual_time = some a →
        (parseYYMMDDHHMM p = none ∨ parseYYMMDDHHMM a = none) → rec.delay = 0) ∧
      (dp.planned_time = none → rec.delay = 0) ∧
      (dp.actual_time = none → rec.delay = 0) := by
  intro pm stop dp rec hdp hrec
  have he := flattenStop_some hdp hrec
  subst he
  have hfield : (flattenDp pm stop dp).delay = delayMin dp := rfl
  refine ⟨?_, ?_, ?_, ?_⟩
  · intro p a P A hp ha hP hA
    rw [hfield]
    unfold delayMin
    rw [hp, ha]
    exact calc_delay_eq hP hA
  · intro p a hp ha hor
    rw [hfield]
    unfold delayMin
    rw [hp, ha]
    show calculate_delay_minutes p a = 0
    unfold calculate_delay_minutes
    rcases hor with h0 | h0
    · rw [h0]
    · rw [h0]
      rcases hq : parseYYMMDDHHMM p with _ | P <;> rfl
  · intro hp
    rw [hfield]
    unfold delayMin
    rw [hp]
  · intro ha
    rw [hfield]
    unfold delayMin
    rw [ha]
    rcases hq : dp.planned_time with _ | p <;> rfl

theorem delay_semantics_witness :
    (flattenDp mapEmpty wStop2 wDp2).delay = 12 ∧
    (flattenDp mapEmpty wStop2b wDp2b).delay = 5 := by
  constructor
  · have h := (delay_semantics mapEmpty wStop2 wDp2 (flattenDp mapEmpty wStop2 wDp2) rfl rfl).1
      "2602101700" "2602101712" ⟨2026, 2, 10, 17, 0⟩ ⟨2026, 2, 10, 17, 12⟩ rfl rfl
      (by decide) (by decide)
    rw [h]
    decide
  · have h := (delay_semantics mapEmpty wStop2b wDp2b (flattenDp mapEmpty wStop2b wDp2b) rfl rfl).1
      "260101100" "260101105" ⟨2026, 1, 1, 10, 0⟩ ⟨2026, 1, 1, 10, 5⟩ rfl rfl
      (by decide) (by decide)
    rw [h]
    decide

/-- C3: `format_db_time` maps an input that passes the source's ten-byte
length gate and parses under `%y%m%d%H%M` to the canonical
`YYYY-MM-DD HH:MM:SS` form and returns every other input unchanged
(wrong length, or a ten-byte input that fails to parse); the flattener
applies it to the actual time if present, else the planned time, else
the empty string. -/
theorem format_db_time_spec :
    (∀ x : String, x.utf8ByteSize ≠ 10 → format_db_time x = x) ∧
    (∀ x : String, parseYYMMDDHHMM x = none → format_db_time x = x) ∧
    (∀ (x : String) (dt : DateTime), x.utf8ByteSize = 10 → parseYYMMDDHHMM x = some dt →
      format_db_time x = formatCanonical dt) ∧
    (∀ (pm : PlanMap) (stop : Stop) (dp : TrainEvent) (rec : Departure),
      stop.departures = some dp → flattenStop pm stop = some rec →
      rec.scheduled_time = format_db_time (dp.actual_time.getD (dp.planned_time.getD ""))) := by
  refine ⟨?_, ?_, ?_, ?_⟩
  · intro x hx
    unfold format_db_time
    rw [if_pos hx]
  · intro x hx
    unfold format_db_time
    split
    · rfl
    · rw [hx]
  · intro x dt hb hx
    unfold format_db_time
    rw [if_neg (fun hh => hh hb), hx]
  · intro pm stop dp rec hdp hrec
    rw [flattenStop_some hdp hrec]
    rfl

theorem format_db_time_spec_witness :
    format_db_time "2602101712" = "2026-02-10 17:12:00" ∧
    format_db_time " 021017005" = "2002-10-17 00:05:00" ∧
    format_db_time "abc" = "abc" := by
  refine ⟨?_, ?_, format_db_time_spec.1 "abc" (by decide)⟩
  · have h := format_db_time_spec.2.2.1 "2602101712" ⟨2026, 2, 10, 17, 12⟩ (by decide) (by decide)
    rw [h]
    decide
  · have h := format_db_time_spec.2.2.1 " 021017005" ⟨2002, 10, 17, 0, 5⟩ (by decide) (by decide)
    rw [h]
    decide

/-- C10: for every pair of strings parsing under `%y%m%d%H%M` (the lenient
chrono parse, whose two-digit year always resolves to 1969..2068) the
minute difference stays far below `2^31`, so the truncating `i32` cast
is lossless and `calculate_delay_minutes` returns the exact signed
difference. -/
theorem delay_no_overflow :
    ∀ (p a : String) (P A : DateTime),
      parseYYMMDDHHMM p = some P → parseYYMMDDHHMM a = some A →
      calculate_delay_minutes p a = minutesValue A - minutesValue P ∧
      -2147483648 < minutesValue A - minutesValue P ∧
      minutesValue A - minutesValue P < 2147483648 ∧
      toI32 (minutesValue A - minutesValue P) = minutesValue A - minutesValue P := by
  intro p a P A hp ha
  have bp := minutesValue_bounds hp
  have ba := minutesValue_bounds ha
  exact ⟨calc_delay_eq hp ha, by omega, by omega, toI32_id (by omega) (by omega)⟩

theorem delay_no_overflow_witness :
    calculate_delay_minutes "9912312359" "0001010000" =
      minutesValue ⟨2000, 1, 1, 0, 0⟩ - minutesValue ⟨1999, 12, 31, 23, 59⟩ :=
  (delay_no_overflow _ _ _ _ (by decide) (by decide)).1

/-- The specification's destination rule, transcribed from its wording:
last `|`-delimited segment of the departure path, with `"Berlin Hbf"`
substituted exactly when the departure path is empty. -/
def destinationSpecC4 (departure_path : String) : String :=
  if departure_path = "" then "Berlin Hbf"
  else (splitPipe departure_path).getLastD ""

/-- Departure event whose path has a trailing separator, so its last
segment is empty while the path itself is not. -/
def cDp4 : TrainEvent := { evNone with planned_path := some "Spandau|" }

/-- Stop wrapping `cDp4`. -/
def cStop4 : Stop :=
  { id := "t4", messages := [], arrivals := none, departures := some cDp4, train_line := none }

/-- C4 counterexample: on the departure path `"Spandau|"` (non-empty, with
an empty last segment) the code substitutes `"Berlin Hbf"`, while the
claimed rule yields the empty last segment — the claim's destination rule
is false at this input. -/
theorem destination_spec_counterexample :
    ((flattenStop mapEmpty cStop4).map Departure.destination) = some "Berlin Hbf" ∧
    destinationSpecC4 (departurePathOf cDp4) = "" ∧
    ((flattenStop mapEmpty cStop4).map Departure.destination) ≠
      some (destinationSpecC4 (departurePathOf cDp4)) := by
  decide

/-- C4 amended: the full route string follows the four-branch join of the
effective paths around `"Berlin Hbf"` exactly as claimed, and the
destination is the last `|`-delimited segment of the departure path with
`"Berlin Hbf"` substituted exactly when that last segment is empty (in
particular when the path is empty). -/
theorem route_and_destination :
    ∀ (pm : PlanMap) (stop : Stop) (dp : TrainEvent) (rec : Departure),
      stop.departures = some dp → flattenStop pm stop = some rec →
      (arrivalPathOf stop = "" → departurePathOf dp = "" → rec.path = "Berlin Hbf") ∧
      (arrivalPathOf stop = "" → departurePathOf dp ≠ "" →
        rec.path = "Berlin Hbf" ++ "|" ++ departurePathOf dp) ∧
      (arrivalPathOf stop ≠ "" → departurePathOf dp = "" →
        rec.path = arrivalPathOf stop ++ "|" ++ "Berlin Hbf") ∧
      (arrivalPathOf stop ≠ "" → departurePathOf dp ≠ "" →
        rec.path = arrivalPathOf stop ++ "|" ++ "Berlin Hbf" ++ "|" ++ departurePathOf dp) ∧
      rec.destination =
        (if (splitPipe (departurePathOf dp)).getLastD "" = "" then "Berlin Hbf"
         else (splitPipe (departurePathOf dp)).getLastD "") ∧
      (stop.arrivals = none → arrivalPathOf stop = "") := by
  intro pm stop dp rec hdp hrec
  have he := flattenStop_some hdp hrec
  subst he
  have hpath : (flattenDp pm stop dp).path = fullRoute (arrivalPathOf stop) (departurePathOf dp) := rfl
  have hdest : (flattenDp pm stop dp).destination = destOf (departurePathOf dp) := rfl
  refine ⟨?_, ?_, ?_, ?_, ?_, ?_⟩
  · intro h1 h2
    rw [hpath]
    unfold fullRoute
    rw [if_pos ⟨h1, h2⟩]
  · intro h1 h2
    rw [hpath]
    unfold fullRoute
    rw [if_neg (fun hc => h2 hc.2), if_pos h1]
  · intro h1 h2
    rw [hpath]
    unfold fullRoute
    rw [if_neg (fun hc => h1 hc.1), if_neg h1, if_pos h2]
  · intro h1 h2
    rw [hpath]
    unfold fullRoute
    rw [if_neg (fun hc => h1 hc.1), if_neg h1, if_neg h2]
  · rw [hdest]
    rfl
  · intro har
    unfold arrivalPathOf
    rw [har]
    rfl

/-- Departure event for the route witness (spec scenario D). -/
def wDp4 : TrainEvent := { evNone with planned_path := some "Spandau|Potsdam" }

/-- Stop wrapping `wDp4`. -/
def wStop4 : Stop :=
  { id := "t4w", messages := [], arrivals := none, departures := some wDp4, train_line := none }

theorem route_and_destination_witness :
    (flattenDp mapEmpty wStop4 wDp4).path = "Berlin Hbf|Spandau|Potsdam" ∧
    (flattenDp mapEmpty wStop4 wDp4).destination = "Potsdam" := by
  have h := route_and_destination mapEmpty wStop4 wDp4 (flattenDp mapEmpty wStop4 wDp4) rfl rfl
  constructor
  · have h2 := h.2.1 (by decide) (by decide)
    rw [h2]
    decide
  · rw [h.2.2.2.2.1]
    decide

/-- C5: the disturbances field is the pipe-joined, ascending-sorted,
duplicate-free union of the category values of the stop's and the
departure event's messages, for any input multiset. -/
theorem disturbances_sorted_nodup :
    ∀ (pm : PlanMap) (stop : Stop) (dp : TrainEvent) (rec : Departure),
      stop.departures = some dp → flattenStop pm stop = some rec →
      rec.disturbances = joinPipe (sortedCats stop dp) ∧
      (sortedCats stop dp).Sorted (· ≤ ·) ∧
      (sortedCats stop dp).Nodup ∧
      (∀ x, x ∈ sortedCats stop dp ↔ x ∈ catList stop dp) ∧
      (catList stop dp = [] → rec.disturbances = "") := by
  intro pm stop dp rec hdp hrec
  have he := flattenStop_some hdp hrec
  subst he
  have hfield : (flattenDp pm stop dp).disturbances = disturbancesOf stop dp := rfl
  have hsorted := sortedCats_sorted stop dp
  refine ⟨hfield, ?_, ?_, sortedCats_mem stop dp, ?_⟩
  · exact List.Pairwise.imp le_of_lt hsorted
  · exact List.Pairwise.imp (fun h => ne_of_lt h) hsorted
  · intro hnil
    rw [hfield]
    unfold disturbancesOf sortedCats
    rw [hnil]
    rfl

/-- Message fixture with category `"b"`. -/
def wMsgB : Message :=
  { msg_type := none, category := some "b", valid_from := none, valid_to := none,
    ts := none, ts_tts := none }

/-- Message fixture with category `"a"`. -/
def wMsgA : Message := { wMsgB with category := some "a" }

/-- Departure event carrying a duplicate category. -/
def wDp5 : TrainEvent := { evNone with messages := [wMsgB] }

/-- Stop whose combined categories are `["b", "a", "b"]`. -/
def wStop5 : Stop :=
  { id := "t5", messages := [wMsgB, wMsgA], arrivals := none, departures := some wDp5,
    train_line := none }

theorem disturbances_sorted_nodup_witness :
    (flattenDp mapEmpty wStop5 wDp5).disturbances = "a|b" := by
  have h := (disturbances_sorted_nodup mapEmpty wStop5 wDp5
    (flattenDp mapEmpty wStop5 wDp5) rfl rfl).1
  rw [h]
  have e1 : catList wStop5 wDp5 = ["b", "a", "b"] := rfl
  have h1 : ("a" : String) ≤ "b" := String.le_iff_toList_le.mpr (by decide)
  have h2 : ¬ ("b" : String) ≤ "a" := fun hc => absurd (String.le_iff_toList_le.mp hc) (by decide)
  have h3 : ("b" : String) ≤ "b" := le_refl _
  unfold sortedCats
  rw [e1]
  simp only [List.insertionSort, List.orderedInsert, if_pos h1, if_neg h2, if_pos h3]
  show joinPipe (dedupAdj ["a", "b", "b"]) = "a|b"
  decide

/-- C6 counterexample: a window whose single hour fails at the transport
layer makes the whole build return an error, refuting the claim that the
Identity Map build never fails outright. -/
theorem plan_map_error_counterexample :
    fetch_plan_map [HourResult.sendError] mapEmpty = Except.error () := rfl

/-- C6 amended: an hour answered with a non-success HTTP status is logged
and skipped and the build continues, returning the map accumulated from
the parsed hours; but a transport error or a body-parse failure of any
hour escapes the surrounding error propagation and aborts the whole
build. -/
theorem plan_map_skips_http_failures :
    (∀ hours : List HourResult,
      (∀ hr ∈ hours, hr = HourResult.httpFailure ∨ ∃ tt, hr = HourResult.body (Except.ok tt)) →
      fetch_plan_map hours mapEmpty =
        Except.ok ((hours.filterMap goodHour).foldl
          (fun m tt => processStops m tt.stops) mapEmpty)) ∧
    (∀ (rest : List HourResult) (m : PlanMap),
      fetch_plan_map (HourResult.sendError :: rest) m = Except.error ()) ∧
    (∀ (rest : List HourResult) (m : PlanMap) (e : String),
      fetch_plan_map (HourResult.body (Except.error e) :: rest) m = Except.error ()) := by
  refine ⟨fun hours h => fetch_plan_map_ok hours mapEmpty h, ?_, ?_⟩
  · intro rest m
    rfl
  · intro rest m e
    rfl

/-- Plan stop resolved from its static descriptor. -/
def wPlanStop6 : Stop :=
  { id := "p6", messages := [], arrivals := none, departures := none,
    train_line := some { category := some "ICE", number := some "147" } }

/-- A window with one skippable hour and one parsed hour. -/
def wHours6 : List HourResult :=
  [HourResult.httpFailure, HourResult.body (Except.ok ⟨[wPlanStop6]⟩)]

theorem plan_map_skips_http_failures_witness :
    fetch_plan_map wHours6 mapEmpty =
      Except.ok ((wHours6.filterMap goodHour).foldl
        (fun m tt => processStops m tt.stops) mapEmpty) := by
  refine plan_map_skips_http_failures.1 wHours6 ?_
  intro hr hmem
  rcases List.mem_cons.mp hmem with rfl | hmem2
  · exact Or.inl rfl
  · rcases List.mem_cons.mp hmem2 with rfl | hmem3
    · exact Or.inr ⟨⟨[wPlanStop6]⟩, rfl⟩
    · cases hmem3

/-- C7: the row-count gate runs first: a count at or above the cap of 500
terminates the run successfully with no network fetch attempted, a failed
or empty query is treated as count 0, and a count below the cap proceeds
to fetching. -/
theorem ingestion_gate_spec :
    ∀ (q : Option Int) (hours : List HourResult) (fchg : Except Unit Timetable)
      (sinkOk : Bool) (now : String),
      (q.getD 0 ≥ 500 →
        runMain q hours fchg sinkOk now =
          { networkAttempted := false, sinkAttempted := false, sinkErrorLogged := false,
            heartbeat := [], ok := true }) ∧
      (q = none → q.getD 0 = 0) ∧
      (q.getD 0 < 500 → (runMain q hours fchg sinkOk now).networkAttempted = true) := by
  intro q hours fchg sinkOk now
  refine ⟨?_, ?_, ?_⟩
  · intro hge
    simp only [runMain]
    rw [if_pos hge]
  · intro hq
    rw [hq]
    rfl
  · intro hlt
    simp only [runMain]
    rw [if_neg (by omega)]
    rcases hfp : fetch_plan_map hours mapEmpty with e | pm
    · rfl
    · rcases fchg with e | tt <;> rfl

theorem ingestion_gate_spec_witness :
    runMain (some 500) [] (Except.error ()) false "TS" =
      { networkAttempted := false, sinkAttempted := false, sinkErrorLogged := false,
        heartbeat := [], ok := true } :=
  (ingestion_gate_spec (some 500) [] (Except.error ()) false "TS").1 (by decide)

/-- Arrival event carrying a line label. -/
def cAr8 : TrainEvent := { evNone with line := some "S1" }

/-- Stop with a departure event that has no line label and an arrival event
that does. -/
def cStop8 : Stop :=
  { id := "trip0001x", messages := [], arrivals := some cAr8, departures := some evNone,
    train_line := none }

/-- C8 counterexample: the resolver picks the departure event merely for
existing; its missing line label is never backfilled from the arrival
event's label, so the stop falls through to the synthetic name instead of
the claimed `"S1"`. -/
theorem plan_name_arrival_counterexample :
    planStopName cStop8 = "ID:trip0001" ∧
    cStop8.departures = some evNone ∧ evNone.line = none ∧
    cStop8.arrivals.map TrainEvent.line = some (some "S1") ∧
    planStopName cStop8 ≠ "S1" := by
  decide

/-- C8 amended: the resolver consults one event only — the departure event
if it exists, else the arrival event — and uses its line label when
present and non-empty; else the static descriptor's name; else the
synthetic `"ID:"`-prefixed name; and a map entry is inserted or
overwritten so the last processed stop with an identifier wins. -/
theorem plan_name_chain_and_overwrite :
    (∀ (stops : List Stop) (m : PlanMap) (id : String),
      processStops m stops id =
        match findLastStop stops id with
        | some s => some (planStopName s)
        | none => m id) ∧
    (∀ (stop : Stop) (dp : TrainEvent) (l : String),
      stop.departures = some dp → dp.line = some l → l ≠ "" →
      planStopName stop = l) ∧
    (∀ (stop : Stop) (ar : TrainEvent) (l : String),
      stop.departures = none → stop.arrivals = some ar → ar.line = some l → l ≠ "" →
      planStopName stop = l) ∧
    (∀ stop : Stop, planEventLine stop = none →
      planStopName stop =
        (stop.train_line.bind TrainLine.name).getD ("ID:" ++ String.mk (stop.id.data.take 8))) := by
  refine ⟨fun stops m id => processStops_lookup stops m id, ?_, ?_, ?_⟩
  · intro stop dp l hdp hl hlne
    unfold planStopName planEventLine
    rw [hdp]
    simp [Option.or, hl, hlne]
  · intro stop ar l hdpn har hl hlne
    unfold planStopName planEventLine
    rw [hdpn, har]
    simp [Option.or, hl, hlne]
  · intro stop hnone
    unfold planStopName
    rw [hnone]
    rfl

/-- Stop fixture for overwrite: first occurrence of the identifier. -/
def wStopA8 : Stop :=
  { id := "dup", messages := [], arrivals := none,
    departures := some { evNone with line := some "RE 1" }, train_line := none }

/-- Stop fixture for overwrite: second occurrence of the identifier. -/
def wStopB8 : Stop :=
  { wStopA8 with departures := some { evNone with line := some "RE 2" } }

theorem plan_name_chain_and_overwrite_witness :
    processStops mapEmpty [wStopA8, wStopB8] "dup" = some "RE 2" := by
  have h := plan_name_chain_and_overwrite.1 [wStopA8, wStopB8] mapEmpty "dup"
  rw [h]
  decide

/-- C9: after a successful live-changes fetch and flatten, exactly one
heartbeat line carrying the timestamp and record count is appended, the
run ends without error whether or not sinking occurred or succeeded (a
sink failure is only logged), and a fetch/parse failure is logged without
crashing the run (no heartbeat is written then). -/
theorem heartbeat_spec :
    ∀ (q : Option Int) (hours : List HourResult) (fchg : Except Unit Timetable)
      (sinkOk : Bool) (now : String) (pm : PlanMap),
      q.getD 0 < 500 →
      fetch_plan_map hours mapEmpty = Except.ok pm →
      (∀ tt, fchg = Except.ok tt →
        (runMain q hours fchg sinkOk now).heartbeat =
          [now ++ " | Fetched " ++ toString (fetch_departures pm tt).length ++ " departures\n"] ∧
        (runMain q hours fchg sinkOk now).ok = true ∧
        (runMain q hours fchg sinkOk now).sinkErrorLogged =
          (decide (fetch_departures pm tt ≠ []) && !sinkOk)) ∧
      (fchg = Except.error () →
        (runMain q hours fchg sinkOk now).ok = true ∧
        (runMain q hours fchg sinkOk now).heartbeat = []) := by
  intro q hours fchg sinkOk now pm hlt hfp
  constructor
  · intro tt htt
    subst htt
    simp only [runMain]
    rw [if_neg (by omega), hfp]
    exact ⟨rfl, rfl, rfl⟩
  · intro herr
    subst herr
    simp only [runMain]
    rw [if_neg (by omega), hfp]
    exact ⟨rfl, rfl⟩

theorem heartbeat_spec_witness :
    (runMain (some 0) [] (Except.ok ⟨[]⟩) false "TS").heartbeat =
      ["TS | Fetched 0 departures\n"] := by
  have h := (heartbeat_spec (some 0) [] (Except.ok ⟨[]⟩) false "TS" mapEmpty
    (by decide) rfl).1 ⟨[]⟩ rfl
  rw [h.1]
  decide

end Scraper
